import Mathlib

/-!
Verification of the plugin-pipeline resolution core (the `Config` class):
glob-based pipeline matching, the spread composition rule, and the
plugin loading / version gate / cache protocol.

The embedding is parametric in the external collaborators (the glob
matcher `micromatch.isMatch`, the semver range checker, the module
resolver) and supplies concrete executable models of them, built from
the description of their interface, for concrete instances.
-/

namespace Parcel

/-- The sentinel spread marker used in pipelines. -/
def spread : String := "..."

/-- The error message thrown when a composed pipeline still holds a
spread marker after substitution. -/
def spreadErrorMsg : String :=
  "Only one spread parameter can be included in a config pipeline"

/-! ## Path basename (model of the `basename` import from `path`) -/

/-- Scan of the character list of a path, keeping the current segment and
the last non-empty segment seen so far; segments are separated by the
slash character. -/
def lastSegment : List Char → List Char → List Char → List Char
  | [], cur, lastNonEmpty => if cur.isEmpty then lastNonEmpty else cur
  | '/' :: rest, cur, lastNonEmpty =>
      lastSegment rest [] (if cur.isEmpty then lastNonEmpty else cur)
  | c :: rest, cur, lastNonEmpty => lastSegment rest (cur ++ [c]) lastNonEmpty

/-- Modelled collaborator: the final segment of a path (the `basename`
function of the `path` module). Returns the path itself when no
non-empty segment exists. -/
def basename (p : String) : String :=
  match lastSegment p.data [] [] with
  | [] => p
  | r => String.mk r

/-! ## Glob matching

The repository delegates single-pattern matching to `micromatch.isMatch`,
an external collaborator; all functions below are parametric in a
matcher `m : path → pattern → Bool`. A concrete executable wildcard
matcher `globMatch` is supplied for concrete instances. -/

/-- All suffixes of a list, longest first, ending in the empty list. -/
def tailsOf : List Char → List (List Char)
  | [] => [[]]
  | c :: cs => (c :: cs) :: tailsOf cs

/-- Modelled collaborator: wildcard matching of a pattern (first
argument) against a string (second argument); the star wildcard matches
any sequence of characters, every other character matches itself. -/
def globChars : List Char → List Char → Bool
  | [], s => s.isEmpty
  | '*' :: ps, s => (tailsOf s).any (fun t => globChars ps t)
  | p :: ps, s =>
      match s with
      | [] => false
      | c :: cs => p == c && globChars ps cs

/-- Modelled collaborator: `micromatch.isMatch(str, pattern)` as a
wildcard matcher over the characters of the string. -/
def globMatch (filePath pattern : String) : Bool :=
  globChars pattern.data filePath.data

/-- `Config.isGlobMatch`: a path matches a pattern when the matcher
accepts the full path or the basename of the path. -/
def isGlobMatch (m : String → String → Bool) (filePath pattern : String) : Bool :=
  m filePath pattern || m (basename filePath) pattern

/-! ## Single-value glob lookup (`Config.matchGlobMap`) -/

/-- `Config.matchGlobMap`: walk the glob map in declaration order and
return the value of the first matching pattern, or none. -/
def matchGlobMap {α : Type} (m : String → String → Bool) (filePath : String) :
    List (String × α) → Option α
  | [] => none
  | (pat, v) :: rest =>
      if isGlobMatch m filePath pat then some v else matchGlobMap m filePath rest

/-! ## Pipeline glob lookup and spread flattening
(`Config.matchGlobMapPipelines`) -/

/-- A pipeline is an ordered list of plugin package names. -/
abbrev Pipeline := List String

/-- Index of the first occurrence of an element in a list; the length of
the list when absent. Models `Array.prototype.indexOf`, whose result is
only used when the element is present. -/
def jsIndexOf (l : List String) (x : String) : Nat :=
  match l with
  | [] => 0
  | y :: rest => if y == x then 0 else jsIndexOf rest x + 1

/-- Whether a pipeline holds a spread marker (models
`pipeline.includes(spread)` and the test `indexOf >= 0`). -/
def hasSpread (l : Pipeline) : Bool :=
  l.any (fun s => s == spread)

/-- The recursive `flatten` closure of `matchGlobMapPipelines`: take the
first pipeline off the queue (empty when exhausted); when it holds a
spread marker, splice the flattened remainder of the queue in place of
the first marker; fail when the substituted pipeline still holds a
marker. -/
def flattenMatches : List Pipeline → Except String Pipeline
  | [] => Except.ok []
  | p :: rest =>
      let step : Except String Pipeline :=
        if hasSpread p then
          match flattenMatches rest with
          | Except.error e => Except.error e
          | Except.ok inner =>
              let i := jsIndexOf p spread
              Except.ok (p.take i ++ inner ++ p.drop (i + 1))
        else Except.ok p
      match step with
      | Except.error e => Except.error e
      | Except.ok pipeline =>
          if hasSpread pipeline then Except.error spreadErrorMsg
          else Except.ok pipeline

/-- The pipelines of all patterns matching a path, in declaration
order (the `matches` queue of `matchGlobMapPipelines`). -/
def matchedPipelines (m : String → String → Bool) (filePath : String)
    (globMap : List (String × Pipeline)) : List Pipeline :=
  (globMap.filter (fun e => isGlobMatch m filePath e.1)).map (fun e => e.2)

/-- `Config.matchGlobMapPipelines`: collect all matching pipelines in
declaration order, then flatten them through the spread rule. -/
def matchGlobMapPipelines (m : String → String → Bool) (filePath : String)
    (globMap : List (String × Pipeline)) : Except String Pipeline :=
  flattenMatches (matchedPipelines m filePath globMap)

/-! ## Semantic-version range satisfaction

Modelled collaborator: the `semver.satisfies(version, range)` check,
for plain `major.minor.patch` versions and caret ranges. -/

/-- Split a character list on the dot character. -/
def splitOnDot : List Char → List Char → List (List Char)
  | [], cur => [cur]
  | '.' :: rest, cur => cur :: splitOnDot rest []
  | c :: rest, cur => splitOnDot rest (cur ++ [c])

/-- Read a non-empty run of decimal digits as a number. -/
def parseNatAux : List Char → Nat → Option Nat
  | [], acc => some acc
  | c :: cs, acc =>
      if c.isDigit then parseNatAux cs (acc * 10 + (c.toNat - 48)) else none

/-- Read a non-empty digit list as a number. -/
def parseNatChars : List Char → Option Nat
  | [] => none
  | cs => parseNatAux cs 0

/-- Parse `major.minor.patch` from a character list. -/
def parseSemverChars (cs : List Char) : Option (Nat × Nat × Nat) :=
  match splitOnDot cs [] with
  | [a, b, c] =>
      match parseNatChars a, parseNatChars b, parseNatChars c with
      | some x, some y, some z => some (x, y, z)
      | _, _, _ => none
  | _ => none

/-- Ordering of semantic versions, component by component. -/
def verGE : Nat × Nat × Nat → Nat × Nat × Nat → Bool
  | (x, y, z), (a, b, c) =>
      (decide (x > a)) || (x == a && ((decide (y > b)) || (y == b && decide (z ≥ c))))

/-- Modelled from the spec: semantic-version range satisfaction
(`semver.satisfies(version, range)`); supports caret ranges (same major
component, and for major zero the same minor as well, and at least the
base version) and exact versions. -/
def semverSatisfies (version range : String) : Bool :=
  match range.data with
  | '^' :: rest =>
      match parseSemverChars version.data, parseSemverChars rest with
      | some v, some r =>
          v.1 == r.1 &&
          (decide (r.1 ≠ 0) || (v.2.1 == r.2.1 && (decide (r.2.1 ≠ 0) || v.2.2 == r.2.2))) &&
          verGE v r
      | _, _ => false
  | _ =>
      match parseSemverChars version.data, parseSemverChars range.data with
      | some v, some r => v.1 == r.1 && v.2.1 == r.2.1 && v.2.2 == r.2.2
      | _, _ => false

/-! ## Plugin loading (`Config.loadPlugin`)

The loaded-module collaborator is modelled by the shape `loadPlugin`
actually inspects: the truthiness of its default export, the well-known
capability export on the default export, and the capability export on
the module itself. The plugin value type is an abstract `π` equipped
with a truthiness predicate supplied by the environment. -/

/-- The part of the package metadata `loadPlugin` reads: the
`engines.parcel` field, with `none` standing for the falsy cases
(absent `engines`, absent `parcel`, empty string). -/
structure PackageMeta where
  enginesParcel : Option String
deriving Repr, DecidableEq

/-- The shape of a loaded module as inspected by `loadPlugin`:
truthiness of the default export, and the capability export read after
the optional unwrapping. -/
structure ModuleExports (π : Type) where
  hasDefault : Bool
  defaultConfig : π
  config : π
deriving Repr, DecidableEq

/-- The capability object extracted from a loaded module: the
well-known export, read off the default export when that is truthy and
off the module itself otherwise. -/
def configExport {π : Type} (mod : ModuleExports π) : π :=
  if mod.hasDefault then mod.defaultConfig else mod.config

/-- The external world of the loader: the glob matcher, the module
resolver (`localRequire.resolve`), module loading (`require`), the
truthiness predicate on plugin values, the running host version
(`PARCEL_VERSION`) and the semver range check. -/
structure Env (π : Type) where
  isMatch : String → String → Bool
  resolve : String → String → Except String (String × PackageMeta)
  require : String → ModuleExports π
  truthy : π → Bool
  parcelVersion : String
  satisfies : String → String → Bool

/-- First-match association lookup (models `Map.prototype.get` and
plain-object key lookup). -/
def assocGet {α : Type} : List (String × α) → String → Option α
  | [], _ => none
  | (k, v) :: rest, key => if k == key then some v else assocGet rest key

/-- Insert or overwrite a key (models `Map.prototype.set`). -/
def assocSet {α : Type} : List (String × α) → String → α → List (String × α)
  | [], key, v => [(key, v)]
  | (k, w) :: rest, key, v =>
      if k == key then (key, v) :: rest else (k, w) :: assocSet rest key v

/-- The plugin cache of one engine instance. -/
abbrev Cache (π : Type) := List (String × π)

/-- The incompatibility error message of `loadPlugin`, naming the
plugin, the required range and the running host version. -/
def incompatMsg (pluginName range version : String) : String :=
  "The plugin \"" ++ pluginName ++
  "\" is not compatible with the current version of Parcel. Requires \"" ++
  range ++ "\" but the current version is \"" ++ version ++ "\"."

/-- The cache check at the head of `loadPlugin`: a hit requires a
stored value that is truthy (`if (cached)`). -/
def cacheCheck {π : Type} (env : Env π) (cache : Cache π) (pluginName : String) :
    Option π :=
  match assocGet cache pluginName with
  | some c => if env.truthy c then some c else none
  | none => none

/-- The body of `loadPlugin` after the cache check misses: resolve the
module (one resolution, counted), gate on the declared version range,
extract the capability, store it and return it. The third component
counts module resolutions performed. -/
def loadPluginFresh {π : Type} (env : Env π) (configPath : String)
    (cache : Cache π) (pluginName : String) :
    Except String π × Cache π × Nat :=
  match env.resolve pluginName configPath with
  | Except.error e => (Except.error e, cache, 1)
  | Except.ok (resolved, pkg) =>
      let store : Except String π × Cache π × Nat :=
        let plugin := configExport (env.require resolved)
        (Except.ok plugin, assocSet cache pluginName plugin, 1)
      match pkg.enginesParcel with
      | some range =>
          if env.satisfies env.parcelVersion range then store
          else
            (Except.error (incompatMsg pluginName range env.parcelVersion), cache, 1)
      | none => store

/-- `Config.loadPlugin`: return the cached value on a truthy hit
without resolving; otherwise resolve, version-gate, extract, store and
return. The third component counts module resolutions performed. -/
def loadPlugin {π : Type} (env : Env π) (configPath : String)
    (cache : Cache π) (pluginName : String) :
    Except String π × Cache π × Nat :=
  match cacheCheck env cache pluginName with
  | some cached => (Except.ok cached, cache, 0)
  | none => loadPluginFresh env configPath cache pluginName

/-- `Config.loadPlugins`: load every name of a pipeline, keeping the
declared order in the result; any failing load fails the whole call. -/
def loadPlugins {π : Type} (env : Env π) (configPath : String)
    (cache : Cache π) : List String → Except String (List π) × Cache π × Nat
  | [] => (Except.ok [], cache, 0)
  | n :: rest =>
      match loadPlugin env configPath cache n with
      | (Except.error e, c1, k1) => (Except.error e, c1, k1)
      | (Except.ok p, c1, k1) =>
          match loadPlugins env configPath c1 rest with
          | (Except.error e, c2, k2) => (Except.error e, c2, k1 + k2)
          | (Except.ok ps, c2, k2) => (Except.ok (p :: ps), c2, k1 + k2)

/-! ## The configuration record and the phase accessors -/

/-- The configuration record held by a `Config` instance, with every
field already defaulted as in the constructor. Glob maps and the
runtimes map are ordered lists of key/value pairs, since declaration
order is significant. -/
structure Config where
  configPath : String
  resolvers : Pipeline
  transforms : List (String × Pipeline)
  bundler : String
  namers : Pipeline
  runtimes : List (String × Pipeline)
  packagers : List (String × String)
  optimizers : List (String × Pipeline)
  reporters : Pipeline

/-- `Config.getResolvers`: fails when the resolvers pipeline is empty. -/
def getResolvers {π : Type} (env : Env π) (cfg : Config) (cache : Cache π) :
    Except String (List π) × Cache π × Nat :=
  if cfg.resolvers.length == 0 then
    (Except.error "No resolver plugins specified in .parcelrc config", cache, 0)
  else loadPlugins env cfg.configPath cache cfg.resolvers

/-- `Config.getTransformers`: fails when the composed pipeline for the
path is empty (a flattening error propagates). -/
def getTransformers {π : Type} (env : Env π) (cfg : Config) (cache : Cache π)
    (filePath : String) : Except String (List π) × Cache π × Nat :=
  match matchGlobMapPipelines env.isMatch filePath cfg.transforms with
  | Except.error e => (Except.error e, cache, 0)
  | Except.ok ts =>
      if ts.length == 0 then
        (Except.error ("No transformers found for \"" ++ filePath ++ "\"."), cache, 0)
      else loadPlugins env cfg.configPath cache ts

/-- `Config.getBundler`: fails when the bundler name is falsy (the
empty string, the constructor default). -/
def getBundler {π : Type} (env : Env π) (cfg : Config) (cache : Cache π) :
    Except String π × Cache π × Nat :=
  if cfg.bundler == "" then
    (Except.error "No bundler specified in .parcelrc config", cache, 0)
  else loadPlugin env cfg.configPath cache cfg.bundler

/-- `Config.getNamers`: fails when the namers pipeline is empty. -/
def getNamers {π : Type} (env : Env π) (cfg : Config) (cache : Cache π) :
    Except String (List π) × Cache π × Nat :=
  if cfg.namers.length == 0 then
    (Except.error "No namer plugins specified in .parcelrc config", cache, 0)
  else loadPlugins env cfg.configPath cache cfg.namers

/-- `Config.getRuntimes`: an absent environment-context tag yields the
empty list, not an error. -/
def getRuntimes {π : Type} (env : Env π) (cfg : Config) (cache : Cache π)
    (context : String) : Except String (List π) × Cache π × Nat :=
  match assocGet cfg.runtimes context with
  | none => (Except.ok [], cache, 0)
  | some rs => loadPlugins env cfg.configPath cache rs

/-- `Config.getPackager`: fails when no pattern matches the path (or
the matched name is the falsy empty string). -/
def getPackager {π : Type} (env : Env π) (cfg : Config) (cache : Cache π)
    (filePath : String) : Except String π × Cache π × Nat :=
  match matchGlobMap env.isMatch filePath cfg.packagers with
  | none => (Except.error ("No packager found for \"" ++ filePath ++ "\"."), cache, 0)
  | some name =>
      if name == "" then
        (Except.error ("No packager found for \"" ++ filePath ++ "\"."), cache, 0)
      else loadPlugin env cfg.configPath cache name

/-- `Config.getOptimizers`: the composed pipeline is loaded as is; with
no match the composed pipeline is empty and the result is the empty
list, not an error (the null check of the source is unreachable since
the flatten always returns an array). -/
def getOptimizers {π : Type} (env : Env π) (cfg : Config) (cache : Cache π)
    (filePath : String) : Except String (List π) × Cache π × Nat :=
  match matchGlobMapPipelines env.isMatch filePath cfg.optimizers with
  | Except.error e => (Except.error e, cache, 0)
  | Except.ok pipe => loadPlugins env cfg.configPath cache pipe

/-! ## Concurrent loads of one identifier

`loadPlugin` suspends between its cache check and its cache store (the
awaited module resolution sits between them). Two overlapping calls for
the same identifier may therefore both run the cache check before
either store happens. The schedule below is that interleaving: caller A
checks, caller B checks, A completes, B completes; the result is the
total number of module resolutions performed. -/
def twoConcurrentLoadsResolveCount {π : Type} (env : Env π) (configPath : String)
    (cache : Cache π) (pluginName : String) : Nat :=
  let hitA := cacheCheck env cache pluginName
  let hitB := cacheCheck env cache pluginName
  match hitA, hitB with
  | some _, some _ => 0
  | some _, none => (loadPluginFresh env configPath cache pluginName).2.2
  | none, some _ => (loadPluginFresh env configPath cache pluginName).2.2
  | none, none =>
      match loadPluginFresh env configPath cache pluginName with
      | (_, c1, k1) => k1 + (loadPluginFresh env configPath c1 pluginName).2.2

/-! ## Helper lemmas -/

theorem hasSpread_eq_true {l : Pipeline} : hasSpread l = true ↔ spread ∈ l := by
  simp only [hasSpread, List.any_eq_true, beq_iff_eq]
  exact ⟨fun ⟨x, hx, e⟩ => e ▸ hx, fun h => ⟨spread, h, rfl⟩⟩

theorem hasSpread_eq_false {l : Pipeline} : hasSpread l = false ↔ spread ∉ l := by
  rw [← Bool.not_eq_true, not_iff_not]
  exact hasSpread_eq_true

theorem hasSpread_append (l₁ l₂ : Pipeline) :
    hasSpread (l₁ ++ l₂) = (hasSpread l₁ || hasSpread l₂) := by
  simp [hasSpread]

theorem jsIndexOf_append_self {a : Pipeline} (b : Pipeline) (ha : spread ∉ a) :
    jsIndexOf (a ++ spread :: b) spread = a.length := by
  induction a with
  | nil => simp [jsIndexOf]
  | cons x rest ih =>
      simp only [List.mem_cons, not_or] at ha
      have hx : (x == spread) = false := beq_eq_false_iff_ne.mpr (fun h => ha.1 h.symm)
      have ih2 := ih ha.2
      simp [jsIndexOf, hx, ih2]

theorem take_len_append (a c : Pipeline) : (a ++ c).take a.length = a := by
  induction a with
  | nil => simp
  | cons x rest ih => simp [ih]

theorem drop_len_succ_append (a : Pipeline) (x : String) (c : Pipeline) :
    (a ++ x :: c).drop (a.length + 1) = c := by
  induction a with
  | nil => simp
  | cons y rest ih =>
      simp only [List.cons_append, List.length_cons, List.drop_succ_cons]
      exact ih

theorem flattenMatches_nil : flattenMatches [] = Except.ok [] := rfl

theorem flattenMatches_cons_nospread (p : Pipeline) (rest : List Pipeline)
    (h : hasSpread p = false) : flattenMatches (p :: rest) = Except.ok p := by
  simp [flattenMatches, h]

theorem flattenMatches_cons_spread_err (p : Pipeline) (rest : List Pipeline) (e : String)
    (h : hasSpread p = true) (hr : flattenMatches rest = Except.error e) :
    flattenMatches (p :: rest) = Except.error e := by
  simp [flattenMatches, h, hr]

theorem flattenMatches_cons_spread_ok (p : Pipeline) (rest : List Pipeline)
    (inner : Pipeline) (h : hasSpread p = true)
    (hr : flattenMatches rest = Except.ok inner) :
    flattenMatches (p :: rest) =
      (if hasSpread (p.take (jsIndexOf p spread) ++ inner ++ p.drop (jsIndexOf p spread + 1))
       then Except.error spreadErrorMsg
       else Except.ok (p.take (jsIndexOf p spread) ++ inner ++ p.drop (jsIndexOf p spread + 1))) := by
  simp only [flattenMatches, h, hr, if_true, List.append_assoc]

theorem flattenMatches_spread_splice (a b : Pipeline) (rest : List Pipeline)
    (inner : Pipeline) (ha : spread ∉ a) (hb : spread ∉ b) (hi : spread ∉ inner)
    (hr : flattenMatches rest = Except.ok inner) :
    flattenMatches ((a ++ spread :: b) :: rest) = Except.ok (a ++ inner ++ b) := by
  have hsp : hasSpread (a ++ spread :: b) = true := by
    rw [hasSpread_eq_true]
    exact List.mem_append_right a (List.mem_cons_self spread b)
  rw [flattenMatches_cons_spread_ok _ _ _ hsp hr, jsIndexOf_append_self b ha,
      take_len_append, drop_len_succ_append]
  have hno : hasSpread (a ++ inner ++ b) = false := by
    rw [hasSpread_append, hasSpread_append, hasSpread_eq_false.mpr ha,
      hasSpread_eq_false.mpr hi, hasSpread_eq_false.mpr hb]
    rfl
  rw [if_neg (by intro h2; rw [hno] at h2; exact Bool.false_ne_true h2)]

theorem flattenMatches_error_msg :
    ∀ (q : List Pipeline) (e : String), flattenMatches q = Except.error e →
      e = spreadErrorMsg := by
  intro q
  induction q with
  | nil => intro e h; simp [flattenMatches] at h
  | cons p rest ih =>
      intro e h
      by_cases hp : hasSpread p
      · cases hr : flattenMatches rest with
        | error e2 =>
            rw [flattenMatches_cons_spread_err p rest e2 hp hr] at h
            injection h with h
            exact h ▸ ih e2 hr
        | ok inner =>
            rw [flattenMatches_cons_spread_ok p rest inner hp hr] at h
            split at h
            · injection h with h
              exact h.symm
            · simp at h
      · rw [flattenMatches_cons_nospread p rest (Bool.of_not_eq_true hp)] at h
        simp at h

theorem flattenMatches_ok_no_spread :
    ∀ (q : List Pipeline) (l : Pipeline), flattenMatches q = Except.ok l →
      hasSpread l = false := by
  intro q
  induction q with
  | nil =>
      intro l h
      simp only [flattenMatches, Except.ok.injEq] at h
      simp [← h, hasSpread]
  | cons p rest ih =>
      intro l h
      by_cases hp : hasSpread p
      · cases hr : flattenMatches rest with
        | error e2 =>
            rw [flattenMatches_cons_spread_err p rest e2 hp hr] at h
            simp at h
        | ok inner =>
            rw [flattenMatches_cons_spread_ok p rest inner hp hr] at h
            split at h
            · simp at h
            · next hq =>
                injection h with h
                rw [← h]
                exact Bool.of_not_eq_true hq
      · have hp2 := Bool.of_not_eq_true hp
        rw [flattenMatches_cons_nospread p rest hp2] at h
        injection h with h
        rw [← h]
        exact hp2

theorem mem_of_one_le_count {l : Pipeline} {x : String} (h : 1 ≤ l.count x) : x ∈ l := by
  by_contra hx
  rw [List.count_eq_zero.mpr hx] at h
  omega

theorem jsIndexOf_decomp (p : Pipeline) (h : spread ∈ p) :
    p.take (jsIndexOf p spread) ++ spread :: p.drop (jsIndexOf p spread + 1) = p ∧
    spread ∉ p.take (jsIndexOf p spread) := by
  induction p with
  | nil => cases h
  | cons x rest ih =>
      by_cases hx : x = spread
      · subst hx
        simp [jsIndexOf]
      · have hx2 : (x == spread) = false := beq_eq_false_iff_ne.mpr hx
        have hmem : spread ∈ rest := by
          cases h with
          | head => exact absurd rfl hx
          | tail _ h2 => exact h2
        have ihp := ih hmem
        constructor
        · simp only [jsIndexOf, hx2, Bool.false_eq_true, if_false, List.take_succ_cons,
            List.drop_succ_cons, List.cons_append]
          rw [ihp.1]
        · intro hc
          simp only [jsIndexOf, hx2, Bool.false_eq_true, if_false,
            List.take_succ_cons] at hc
          cases hc with
          | head => exact hx rfl
          | tail _ h2 => exact ihp.2 h2

theorem count_splice_pos (p inner : Pipeline) (h2 : 2 ≤ p.count spread) :
    hasSpread (p.take (jsIndexOf p spread) ++ inner ++ p.drop (jsIndexOf p spread + 1))
      = true := by
  have hmem : spread ∈ p := mem_of_one_le_count (by omega)
  have hdec := jsIndexOf_decomp p hmem
  have hcount : p.count spread =
      (p.take (jsIndexOf p spread)).count spread + 1 +
        (p.drop (jsIndexOf p spread + 1)).count spread := by
    conv_lhs => rw [← hdec.1]
    rw [List.count_append, List.count_cons_self]
    omega
  have htake : (p.take (jsIndexOf p spread)).count spread = 0 :=
    List.count_eq_zero.mpr hdec.2
  have hdrop : 1 ≤ (p.drop (jsIndexOf p spread + 1)).count spread := by omega
  rw [hasSpread_eq_true]
  exact List.mem_append_right _ (mem_of_one_le_count hdrop)

theorem flattenMatches_error_of_double (pre : List Pipeline) (p : Pipeline)
    (post : List Pipeline) (hpre : ∀ q ∈ pre, spread ∈ q) (h2 : 2 ≤ p.count spread) :
    flattenMatches (pre ++ p :: post) = Except.error spreadErrorMsg := by
  induction pre with
  | nil =>
      have hp : hasSpread p = true :=
        hasSpread_eq_true.mpr (mem_of_one_le_count (by omega))
      cases hr : flattenMatches post with
      | error e =>
          rw [List.nil_append, flattenMatches_cons_spread_err p post e hp hr,
            flattenMatches_error_msg post e hr]
      | ok inner =>
          rw [List.nil_append, flattenMatches_cons_spread_ok p post inner hp hr,
            if_pos (count_splice_pos p inner h2)]
  | cons q pre ih =>
      have hq : hasSpread q = true := hasSpread_eq_true.mpr (hpre q (List.mem_cons_self q pre))
      have ih2 := ih (fun r hr => hpre r (List.mem_cons_of_mem q hr))
      rw [List.cons_append]
      exact flattenMatches_cons_spread_err q _ _ hq ih2

theorem matchGlobMap_none_of_no_match {α : Type} (m : String → String → Bool)
    (fp : String) :
    ∀ (gm : List (String × α)), (∀ e ∈ gm, isGlobMatch m fp e.1 = false) →
      matchGlobMap m fp gm = none := by
  intro gm
  induction gm with
  | nil => intro _; rfl
  | cons e rest ih =>
      intro h
      have he := h e (List.mem_cons_self e rest)
      simp only [matchGlobMap, he, Bool.false_eq_true, if_false]
      exact ih (fun e2 h2 => h e2 (List.mem_cons_of_mem e h2))

theorem matchGlobMap_first {α : Type} (m : String → String → Bool) (fp pat : String)
    (v : α) (pre post : List (String × α))
    (hpre : ∀ e ∈ pre, isGlobMatch m fp e.1 = false)
    (hpat : isGlobMatch m fp pat = true) :
    matchGlobMap m fp (pre ++ (pat, v) :: post) = some v := by
  induction pre with
  | nil => simp [matchGlobMap, hpat]
  | cons e rest ih =>
      have he := hpre e (List.mem_cons_self e rest)
      simp only [List.cons_append, matchGlobMap, he, Bool.false_eq_true, if_false]
      exact ih (fun e2 h2 => hpre e2 (List.mem_cons_of_mem e h2))

theorem matchedPipelines_eq_nil (m : String → String → Bool) (fp : String)
    (gm : List (String × Pipeline)) (h : ∀ e ∈ gm, isGlobMatch m fp e.1 = false) :
    matchedPipelines m fp gm = [] := by
  induction gm with
  | nil => rfl
  | cons e rest ih =>
      have he := h e (List.mem_cons_self e rest)
      simp only [matchedPipelines, List.filter_cons, he, Bool.false_eq_true, if_false]
      exact ih (fun e2 h2 => h e2 (List.mem_cons_of_mem e h2))

/-! ## Claims about glob matching and pipeline composition -/

/-- C1: for a glob map with two entries both matching a path, where the
first pipeline holds one spread marker (and the spliced pipelines are
marker-free, the multi-marker case being an error), the result is the
non-spread entries of the first pipeline with the second pipeline
spliced exactly at the marker position, order preserved; and when
exactly one entry matches (the other pattern failing), the marker
expands to the empty sequence. -/
theorem C1_spread_composition (m : String → String → Bool) (path g1 g2 g3 : String)
    (a b second : Pipeline)
    (h1 : isGlobMatch m path g1 = true) (h2 : isGlobMatch m path g2 = true)
    (h3 : isGlobMatch m path g3 = false)
    (ha : spread ∉ a) (hb : spread ∉ b) (hs : spread ∉ second) :
    matchGlobMapPipelines m path [(g1, a ++ spread :: b), (g2, second)]
      = Except.ok (a ++ second ++ b)
    ∧ matchGlobMapPipelines m path [(g1, a ++ spread :: b), (g3, second)]
      = Except.ok (a ++ b) := by
  constructor
  · have hq : matchedPipelines m path [(g1, a ++ spread :: b), (g2, second)]
        = [a ++ spread :: b, second] := by
      simp [matchedPipelines, h1, h2]
    rw [matchGlobMapPipelines, hq]
    exact flattenMatches_spread_splice a b [second] second ha hb hs
      (flattenMatches_cons_nospread second [] (hasSpread_eq_false.mpr hs))
  · have hq : matchedPipelines m path [(g1, a ++ spread :: b), (g3, second)]
        = [a ++ spread :: b] := by
      simp [matchedPipelines, h1, h3]
    rw [matchGlobMapPipelines, hq]
    have h := flattenMatches_spread_splice a b [] []
      ha hb (List.not_mem_nil spread) flattenMatches_nil
    simpa using h

/-- Witness for C1 at concrete inputs: the hypotheses hold and the
composed pipelines are as stated. -/
theorem C1_spread_composition_witness :
    isGlobMatch globMatch "x.css" "*.css" = true
    ∧ isGlobMatch globMatch "x.css" "*" = true
    ∧ isGlobMatch globMatch "x.css" "nomatch" = false
    ∧ matchGlobMapPipelines globMatch "x.css"
        [("*.css", ["p1", "...", "p2"]), ("*", ["q1", "q2"])]
        = Except.ok ["p1", "q1", "q2", "p2"]
    ∧ matchGlobMapPipelines globMatch "x.css"
        [("*.css", ["p1", "...", "p2"]), ("nomatch", ["q1", "q2"])]
        = Except.ok ["p1", "p2"] := by
  have h := C1_spread_composition globMatch "x.css" "*.css" "*" "nomatch"
    ["p1"] ["p2"] ["q1", "q2"] (by decide) (by decide) (by decide)
    (by decide) (by decide) (by decide)
  exact ⟨by decide, by decide, by decide, h.1, h.2⟩

/-- C3: when the queue of matched pipelines reaches a pipeline holding
two or more spread markers (every pipeline before it holding a marker,
so the recursion reaches it), `matchGlobMapPipelines` fails with the
composition error rather than returning a pipeline. -/
theorem C3_double_spread_error (m : String → String → Bool) (path : String)
    (globMap : List (String × Pipeline)) (pre : List Pipeline) (p : Pipeline)
    (post : List Pipeline)
    (hdecomp : matchedPipelines m path globMap = pre ++ p :: post)
    (hpre : ∀ q ∈ pre, spread ∈ q)
    (h2 : 2 ≤ p.count spread) :
    matchGlobMapPipelines m path globMap = Except.error spreadErrorMsg := by
  rw [matchGlobMapPipelines, hdecomp]
  exact flattenMatches_error_of_double pre p post hpre h2

/-- Witness for C3: a single matching entry whose pipeline holds two
spread markers fails with the composition error. -/
theorem C3_double_spread_error_witness :
    matchedPipelines globMatch "x.css" [("*.css", ["a", "...", "b", "...", "c"])]
      = [] ++ ["a", "...", "b", "...", "c"] :: []
    ∧ 2 ≤ List.count spread ["a", "...", "b", "...", "c"]
    ∧ matchGlobMapPipelines globMatch "x.css"
        [("*.css", ["a", "...", "b", "...", "c"])] = Except.error spreadErrorMsg := by
  refine ⟨by decide, by decide, ?_⟩
  exact C3_double_spread_error globMatch "x.css"
    [("*.css", ["a", "...", "b", "...", "c"])]
    [] ["a", "...", "b", "...", "c"] [] (by decide)
    (fun q hq => absurd hq (List.not_mem_nil q)) (by decide)

/-- C5: `matchGlobMap` walks declared patterns in declaration order and
returns the value of the first matching pattern, none when no pattern
matches; over the map with the patterns star dot css then star dot
module dot css and input x dot module dot css it returns pkgA, so
declaration order, not specificity, decides ties. -/
theorem C5_first_declared_match {α : Type} (m : String → String → Bool)
    (fp pat : String) (v : α) (pre post : List (String × α))
    (hpre : ∀ e ∈ pre, isGlobMatch m fp e.1 = false)
    (hpat : isGlobMatch m fp pat = true) :
    matchGlobMap m fp (pre ++ (pat, v) :: post) = some v
    ∧ (∀ gm : List (String × α), (∀ e ∈ gm, isGlobMatch m fp e.1 = false) →
        matchGlobMap m fp gm = none)
    ∧ matchGlobMap globMatch "x.module.css" [("*.css", "pkgA"), ("*.module.css", "pkgB")]
        = some "pkgA" := by
  refine ⟨matchGlobMap_first m fp pat v pre post hpre hpat,
    matchGlobMap_none_of_no_match m fp, by decide⟩

/-- Witness for C5 at concrete inputs: with the specificity-tie map the
first declared pattern wins, and an unmatched map yields none. -/
theorem C5_first_declared_match_witness :
    isGlobMatch globMatch "x.module.css" "*.css" = true
    ∧ matchGlobMap globMatch "x.module.css" [("*.css", "pkgA"), ("*.module.css", "pkgB")]
        = some "pkgA"
    ∧ matchGlobMap globMatch "x.module.css" [("*.js", "pkgC")] = none := by
  have h := C5_first_declared_match globMatch "x.module.css" "*.css" "pkgA"
    [] [("*.module.css", "pkgB")]
    (fun e he => absurd he (List.not_mem_nil e)) (by decide)
  exact ⟨by decide, h.1, h.2.1 [("*.js", "pkgC")] (by decide)⟩

/-- C7: `isGlobMatch` holds exactly when the matcher accepts the full
path or the basename alone; in particular it holds when only the
basename matches and when only the full path matches. -/
theorem C7_full_path_or_basename (m : String → String → Bool) (F P : String) :
    (isGlobMatch m F P = true ↔ (m F P = true ∨ m (basename F) P = true))
    ∧ globMatch "src/x.css" "x.css" = false
    ∧ globMatch (basename "src/x.css") "x.css" = true
    ∧ isGlobMatch globMatch "src/x.css" "x.css" = true
    ∧ globMatch "src/x.css" "src/*" = true
    ∧ globMatch (basename "src/x.css") "src/*" = false
    ∧ isGlobMatch globMatch "src/x.css" "src/*" = true := by
  refine ⟨?_, by decide, by decide, by decide, by decide, by decide, by decide⟩
  simp [isGlobMatch, Bool.or_eq_true]

/-! ## Helper lemmas about the cache and the loader -/

theorem assocGet_assocSet_self {π : Type} (c : Cache π) (k : String) (v : π) :
    assocGet (assocSet c k v) k = some v := by
  induction c with
  | nil => simp [assocSet, assocGet]
  | cons e rest ih =>
      obtain ⟨k1, w⟩ := e
      by_cases hk : (k1 == k) = true
      · simp [assocSet, assocGet, hk]
      · simp only [assocSet, hk, Bool.false_eq_true, if_false]
        simp only [assocGet, hk, Bool.false_eq_true, if_false]
        exact ih

theorem assocSet_self_of_get {π : Type} (c : Cache π) (k : String) (v : π)
    (h : assocGet c k = some v) : assocSet c k v = c := by
  induction c with
  | nil => simp [assocGet] at h
  | cons e rest ih =>
      obtain ⟨k1, w⟩ := e
      by_cases hk : (k1 == k) = true
      · have hkeq : k1 = k := eq_of_beq hk
        simp only [assocGet, hk, if_true, Option.some.injEq] at h
        simp [assocSet, hk, hkeq, h]
      · simp only [assocGet, hk, Bool.false_eq_true, if_false] at h
        simp [assocSet, hk, ih h]

theorem loadPluginFresh_store {π : Type} (env : Env π) (configPath pluginName : String)
    (cache : Cache π) (resolved : String) (pkg : PackageMeta)
    (hres : env.resolve pluginName configPath = Except.ok (resolved, pkg))
    (hver : ∀ r, pkg.enginesParcel = some r → env.satisfies env.parcelVersion r = true) :
    loadPluginFresh env configPath cache pluginName =
      (Except.ok (configExport (env.require resolved)),
        assocSet cache pluginName (configExport (env.require resolved)), 1) := by
  cases hep : pkg.enginesParcel with
  | none => simp [loadPluginFresh, hres, hep]
  | some r => simp [loadPluginFresh, hres, hep, hver r hep]

theorem loadPluginFresh_error_state {π : Type} (env : Env π)
    (configPath pluginName : String) (cache : Cache π) (e : String)
    (h : (loadPluginFresh env configPath cache pluginName).1 = Except.error e) :
    loadPluginFresh env configPath cache pluginName = (Except.error e, cache, 1) := by
  cases hres : env.resolve pluginName configPath with
  | error e2 =>
      have heq : loadPluginFresh env configPath cache pluginName =
          (Except.error e2, cache, 1) := by
        simp [loadPluginFresh, hres]
      rw [heq] at h ⊢
      simp only at h
      injection h with h
      rw [h]
  | ok rp =>
      obtain ⟨resolved, pkg⟩ := rp
      cases hep : pkg.enginesParcel with
      | none =>
          have heq : loadPluginFresh env configPath cache pluginName =
              (Except.ok (configExport (env.require resolved)),
                assocSet cache pluginName (configExport (env.require resolved)), 1) := by
            simp [loadPluginFresh, hres, hep]
          rw [heq] at h
          simp at h
      | some r =>
          cases hsat : env.satisfies env.parcelVersion r with
          | true =>
              have heq : loadPluginFresh env configPath cache pluginName =
                  (Except.ok (configExport (env.require resolved)),
                    assocSet cache pluginName (configExport (env.require resolved)), 1) := by
                simp [loadPluginFresh, hres, hep, hsat]
              rw [heq] at h
              simp at h
          | false =>
              have heq : loadPluginFresh env configPath cache pluginName =
                  (Except.error (incompatMsg pluginName r env.parcelVersion), cache, 1) := by
                simp [loadPluginFresh, hres, hep, hsat]
              rw [heq] at h ⊢
              simp only at h
              injection h with h
              rw [h]

theorem loadPluginFresh_ok_cache {π : Type} (env : Env π)
    (configPath pluginName : String) (cache : Cache π) (p : π)
    (h : (loadPluginFresh env configPath cache pluginName).1 = Except.ok p) :
    loadPluginFresh env configPath cache pluginName =
      (Except.ok p, assocSet cache pluginName p, 1) := by
  cases hres : env.resolve pluginName configPath with
  | error e2 =>
      have heq : loadPluginFresh env configPath cache pluginName =
          (Except.error e2, cache, 1) := by
        simp [loadPluginFresh, hres]
      rw [heq] at h
      simp at h
  | ok rp =>
      obtain ⟨resolved, pkg⟩ := rp
      have store : ∀ hstep : loadPluginFresh env configPath cache pluginName =
          (Except.ok (configExport (env.require resolved)),
            assocSet cache pluginName (configExport (env.require resolved)), 1),
          loadPluginFresh env configPath cache pluginName =
            (Except.ok p, assocSet cache pluginName p, 1) := by
        intro hstep
        rw [hstep] at h ⊢
        simp only at h
        injection h with h
        rw [h]
      cases hep : pkg.enginesParcel with
      | none => exact store (by simp [loadPluginFresh, hres, hep])
      | some r =>
          cases hsat : env.satisfies env.parcelVersion r with
          | true => exact store (by simp [loadPluginFresh, hres, hep, hsat])
          | false =>
              have heq : loadPluginFresh env configPath cache pluginName =
                  (Except.error (incompatMsg pluginName r env.parcelVersion), cache, 1) := by
                simp [loadPluginFresh, hres, hep, hsat]
              rw [heq] at h
              simp at h

/-! ## Concrete environments and configuration for the instances -/

/-- Concrete environment for the caret-range instance: every resolution
yields a plugin whose package metadata declares the caret-two range
under `engines.parcel`, the loaded module exports the truthy capability
value one, and the range check is the semver model; the host version is
the parameter. -/
def envCaret (hostVersion : String) : Env Nat :=
  { isMatch := fun _ _ => true
    resolve := fun _ _ => Except.ok ("resolved", { enginesParcel := some "^2.0.0" })
    require := fun _ => { hasDefault := false, defaultConfig := 1, config := 1 }
    truthy := fun n => n != 0
    parcelVersion := hostVersion
    satisfies := semverSatisfies }

/-- Concrete environment whose loaded module exports the falsy
capability value zero and declares no version range. -/
def envFalsy : Env Nat :=
  { isMatch := fun _ _ => true
    resolve := fun _ _ => Except.ok ("resolved", { enginesParcel := none })
    require := fun _ => { hasDefault := false, defaultConfig := 0, config := 0 }
    truthy := fun n => n != 0
    parcelVersion := "2.0.0"
    satisfies := semverSatisfies }

/-- Concrete environment whose module resolution always fails with a
not-found error. -/
def envNotFound : Env Nat :=
  { isMatch := fun _ _ => true
    resolve := fun n _ => Except.error ("Cannot find module " ++ n)
    require := fun _ => { hasDefault := false, defaultConfig := 1, config := 1 }
    truthy := fun n => n != 0
    parcelVersion := "2.0.0"
    satisfies := semverSatisfies }

/-- The configuration record with every field defaulted, as built by
the constructor from an empty input record. -/
def cfgEmpty : Config :=
  { configPath := "cp"
    resolvers := []
    transforms := []
    bundler := ""
    namers := []
    runtimes := []
    packagers := []
    optimizers := []
    reporters := [] }

/-! ## Claims about the plugin loader and the phase accessors -/

/-- C2: for an uncached plugin whose resolved package metadata declares
a version range under `engines.parcel`, `loadPlugin` fails with the
error naming the plugin, the range and the host version when the host
version does not satisfy the range, and succeeds when it does; in
particular a plugin declaring the caret-two range fails on host 1.9.0
and loads on host 2.3.1. -/
theorem C2_version_gate {π : Type} (env : Env π)
    (configPath pluginName resolved : String) (pkg : PackageMeta) (range : String)
    (cache : Cache π)
    (hmiss : cacheCheck env cache pluginName = none)
    (hres : env.resolve pluginName configPath = Except.ok (resolved, pkg))
    (hrange : pkg.enginesParcel = some range) :
    (env.satisfies env.parcelVersion range = false →
      loadPlugin env configPath cache pluginName =
        (Except.error (incompatMsg pluginName range env.parcelVersion), cache, 1))
    ∧ (env.satisfies env.parcelVersion range = true →
      loadPlugin env configPath cache pluginName =
        (Except.ok (configExport (env.require resolved)),
          assocSet cache pluginName (configExport (env.require resolved)), 1))
    ∧ (loadPlugin (envCaret "1.9.0") "cp" [] "my-plugin").1 =
        Except.error (incompatMsg "my-plugin" "^2.0.0" "1.9.0")
    ∧ (loadPlugin (envCaret "2.3.1") "cp" [] "my-plugin").1 = Except.ok 1 := by
  refine ⟨?_, ?_, rfl, rfl⟩
  · intro hsat
    simp [loadPlugin, hmiss, loadPluginFresh, hres, hrange, hsat]
  · intro hsat
    simp [loadPlugin, hmiss, loadPluginFresh, hres, hrange, hsat]

/-- Witness for C2: the caret-range plugin on host 1.9.0, with the
hypotheses evaluated and the failure as stated. -/
theorem C2_version_gate_witness :
    cacheCheck (envCaret "1.9.0") ([] : Cache Nat) "my-plugin" = none
    ∧ semverSatisfies "1.9.0" "^2.0.0" = false
    ∧ loadPlugin (envCaret "1.9.0") "cp" [] "my-plugin" =
        (Except.error (incompatMsg "my-plugin" "^2.0.0" "1.9.0"), [], 1) := by
  have h := C2_version_gate (envCaret "1.9.0") "cp" "my-plugin" "resolved"
    { enginesParcel := some "^2.0.0" } "^2.0.0" [] rfl rfl rfl
  exact ⟨rfl, rfl, h.1 rfl⟩

/-- C4: the schedule in which two concurrent `loadPlugin` calls for the
same uncached identifier both run the cache check before either
resolution completes performs two module resolutions, while a single
call performs one; the bare cache check does not coalesce in-flight
loads. -/
theorem C4_concurrent_double_resolution :
    twoConcurrentLoadsResolveCount (envCaret "2.3.1") "cp" [] "my-plugin" = 2
    ∧ (loadPlugin (envCaret "2.3.1") "cp" [] "my-plugin").2.2 = 1 :=
  ⟨rfl, rfl⟩

/-- C8 counterexample: with a module whose extracted capability is the
falsy value zero, the first `loadPlugin` call succeeds, yet the second
call for the same identifier performs a module resolution again (one,
not zero), refuting the unconditional claim. -/
theorem C8_second_load_counterexample :
    (loadPlugin envFalsy "cp" [] "plug").1 = Except.ok 0
    ∧ (loadPlugin envFalsy "cp" (loadPlugin envFalsy "cp" [] "plug").2.1 "plug").2.2 = 1 :=
  ⟨rfl, rfl⟩

/-- C8 (amended): after a first successful `loadPlugin` call whose
returned capability value is truthy, a second call with the same
identifier returns the identical cached value, leaves the cache
untouched and performs no module resolution. -/
theorem C8_second_load_cached {π : Type} (env : Env π)
    (configPath pluginName : String) (cache : Cache π) (p : π)
    (h1 : (loadPlugin env configPath cache pluginName).1 = Except.ok p)
    (h2 : env.truthy p = true) :
    loadPlugin env configPath (loadPlugin env configPath cache pluginName).2.1 pluginName
      = (Except.ok p, (loadPlugin env configPath cache pluginName).2.1, 0) := by
  cases hcc : cacheCheck env cache pluginName with
  | some c =>
      have hres1 : loadPlugin env configPath cache pluginName = (Except.ok c, cache, 0) := by
        simp [loadPlugin, hcc]
      rw [hres1] at h1 ⊢
      simp only at h1
      injection h1 with h1
      rw [h1] at hcc
      simp [loadPlugin, hcc]
  | none =>
      have hload : loadPlugin env configPath cache pluginName =
          loadPluginFresh env configPath cache pluginName := by
        simp [loadPlugin, hcc]
      rw [hload] at h1 ⊢
      rw [loadPluginFresh_ok_cache env configPath pluginName cache p h1]
      have hcc2 : cacheCheck env (assocSet cache pluginName p) pluginName = some p := by
        simp [cacheCheck, assocGet_assocSet_self, h2]
      simp [loadPlugin, hcc2]

/-- Witness for C8 (amended): a truthy capability is cached by the
first call and returned identically by the second with no resolution. -/
theorem C8_second_load_cached_witness :
    (loadPlugin (envCaret "2.3.1") "cp" [] "plug").1 = Except.ok 1
    ∧ (envCaret "2.3.1").truthy 1 = true
    ∧ loadPlugin (envCaret "2.3.1") "cp"
        (loadPlugin (envCaret "2.3.1") "cp" [] "plug").2.1 "plug"
        = (Except.ok 1, (loadPlugin (envCaret "2.3.1") "cp" [] "plug").2.1, 0) :=
  ⟨rfl, rfl, C8_second_load_cached (envCaret "2.3.1") "cp" "plug" [] 1 rfl rfl⟩

/-- C9: a failing `loadPlugin` call (resolution failure or version
mismatch) leaves the cache exactly as it was, after having attempted
one module resolution; replaying the call on the resulting state
behaves identically to the first call, so resolution is attempted
again. -/
theorem C9_failed_load_leaves_cache {π : Type} (env : Env π)
    (configPath pluginName : String) (cache : Cache π) (e : String)
    (h : (loadPlugin env configPath cache pluginName).1 = Except.error e) :
    loadPlugin env configPath cache pluginName = (Except.error e, cache, 1)
    ∧ loadPlugin env configPath (loadPlugin env configPath cache pluginName).2.1 pluginName
        = loadPlugin env configPath cache pluginName := by
  cases hcc : cacheCheck env cache pluginName with
  | some c =>
      have hres1 : loadPlugin env configPath cache pluginName = (Except.ok c, cache, 0) := by
        simp [loadPlugin, hcc]
      rw [hres1] at h
      simp at h
  | none =>
      have hload : loadPlugin env configPath cache pluginName =
          loadPluginFresh env configPath cache pluginName := by
        simp [loadPlugin, hcc]
      rw [hload] at h ⊢
      have hstate := loadPluginFresh_error_state env configPath pluginName cache e h
      rw [hstate]
      exact ⟨rfl, by rw [hload, hstate]⟩

/-- Witness for C9: a not-found resolution fails, leaves the empty
cache empty after one attempted resolution, and replays identically. -/
theorem C9_failed_load_leaves_cache_witness :
    (loadPlugin envNotFound "cp" [] "plug").1 = Except.error "Cannot find module plug"
    ∧ loadPlugin envNotFound "cp" [] "plug" =
        (Except.error "Cannot find module plug", [], 1)
    ∧ loadPlugin envNotFound "cp" (loadPlugin envNotFound "cp" [] "plug").2.1 "plug"
        = loadPlugin envNotFound "cp" [] "plug" := by
  have h := C9_failed_load_leaves_cache envNotFound "cp" "plug" []
    "Cannot find module plug" rfl
  exact ⟨rfl, h.1, h.2⟩

/-- C10: when the extracted capability of a plugin is falsy, a load
stores it in the cache, yet the truthiness-based cache check never
hits: the next call for the identifier performs resolution again (and
leaves the cache unchanged, so every further call behaves the same). -/
theorem C10_falsy_capability_defeats_cache {π : Type} (env : Env π)
    (configPath pluginName resolved : String) (pkg : PackageMeta) (cache : Cache π)
    (hmiss : cacheCheck env cache pluginName = none)
    (hres : env.resolve pluginName configPath = Except.ok (resolved, pkg))
    (hver : ∀ r, pkg.enginesParcel = some r → env.satisfies env.parcelVersion r = true)
    (hfalsy : env.truthy (configExport (env.require resolved)) = false) :
    loadPlugin env configPath cache pluginName =
      (Except.ok (configExport (env.require resolved)),
        assocSet cache pluginName (configExport (env.require resolved)), 1)
    ∧ assocGet (assocSet cache pluginName (configExport (env.require resolved))) pluginName
        = some (configExport (env.require resolved))
    ∧ loadPlugin env configPath
        (assocSet cache pluginName (configExport (env.require resolved))) pluginName
        = (Except.ok (configExport (env.require resolved)),
            assocSet cache pluginName (configExport (env.require resolved)), 1) := by
  have hstore := loadPluginFresh_store env configPath pluginName cache resolved pkg hres hver
  have hfirst : loadPlugin env configPath cache pluginName =
      (Except.ok (configExport (env.require resolved)),
        assocSet cache pluginName (configExport (env.require resolved)), 1) := by
    rw [loadPlugin, hmiss, hstore]
  refine ⟨hfirst, assocGet_assocSet_self cache pluginName _, ?_⟩
  have hcc2 : cacheCheck env
      (assocSet cache pluginName (configExport (env.require resolved))) pluginName
      = none := by
    simp [cacheCheck, assocGet_assocSet_self, hfalsy]
  have hstore2 := loadPluginFresh_store env configPath pluginName
    (assocSet cache pluginName (configExport (env.require resolved))) resolved pkg hres hver
  rw [loadPlugin, hcc2, hstore2,
    assocSet_self_of_get _ _ _ (assocGet_assocSet_self cache pluginName _)]

/-- Witness for C10: the falsy capability zero is stored by the first
call, yet the second call resolves again and leaves the cache as it
was. -/
theorem C10_falsy_capability_defeats_cache_witness :
    cacheCheck envFalsy ([] : Cache Nat) "plug" = none
    ∧ envFalsy.truthy 0 = false
    ∧ loadPlugin envFalsy "cp" [] "plug" = (Except.ok 0, [("plug", 0)], 1)
    ∧ assocGet [("plug", (0 : Nat))] "plug" = some 0
    ∧ loadPlugin envFalsy "cp" [("plug", 0)] "plug" = (Except.ok 0, [("plug", 0)], 1) := by
  have h := C10_falsy_capability_defeats_cache envFalsy "cp" "plug" "resolved"
    { enginesParcel := none } [] rfl rfl (fun r hr => nomatch hr) rfl
  exact ⟨rfl, rfl, h.1, h.2.1, h.2.2⟩

/-- C6: the empty-result policy of the phase accessors: empty resolvers,
absent bundler, empty namers, an unmatched transformer path and an
unmatched packager path fail with their configuration errors (naming
the phase, and the path where applicable), while an absent runtimes tag
and an unmatched optimizers path yield the empty sequence. -/
theorem C6_phase_empty_policy {π : Type} (env : Env π) (cfg : Config) (cache : Cache π)
    (filePath context : String) :
    (cfg.resolvers = [] → getResolvers env cfg cache =
      (Except.error "No resolver plugins specified in .parcelrc config", cache, 0))
    ∧ (cfg.bundler = "" → getBundler env cfg cache =
      (Except.error "No bundler specified in .parcelrc config", cache, 0))
    ∧ (cfg.namers = [] → getNamers env cfg cache =
      (Except.error "No namer plugins specified in .parcelrc config", cache, 0))
    ∧ ((∀ e ∈ cfg.transforms, isGlobMatch env.isMatch filePath e.1 = false) →
      getTransformers env cfg cache filePath =
        (Except.error ("No transformers found for \"" ++ filePath ++ "\"."), cache, 0))
    ∧ ((∀ e ∈ cfg.packagers, isGlobMatch env.isMatch filePath e.1 = false) →
      getPackager env cfg cache filePath =
        (Except.error ("No packager found for \"" ++ filePath ++ "\"."), cache, 0))
    ∧ (assocGet cfg.runtimes context = none →
      getRuntimes env cfg cache context = (Except.ok [], cache, 0))
    ∧ ((∀ e ∈ cfg.optimizers, isGlobMatch env.isMatch filePath e.1 = false) →
      getOptimizers env cfg cache filePath = (Except.ok [], cache, 0)) := by
  refine ⟨?_, ?_, ?_, ?_, ?_, ?_, ?_⟩
  · intro h; simp [getResolvers, h]
  · intro h; simp [getBundler, h]
  · intro h; simp [getNamers, h]
  · intro h
    have hmp := matchedPipelines_eq_nil env.isMatch filePath cfg.transforms h
    simp [getTransformers, matchGlobMapPipelines, hmp, flattenMatches]
  · intro h
    have hmm := matchGlobMap_none_of_no_match env.isMatch filePath cfg.packagers h
    simp [getPackager, hmm]
  · intro h; simp [getRuntimes, h]
  · intro h
    have hmp := matchedPipelines_eq_nil env.isMatch filePath cfg.optimizers h
    simp [getOptimizers, matchGlobMapPipelines, hmp, flattenMatches, loadPlugins]

/-- Witness for C6: the empty configuration record with a path and a
context tag that match nothing. -/
theorem C6_phase_empty_policy_witness :
    getResolvers (envCaret "2.3.1") cfgEmpty [] =
      (Except.error "No resolver plugins specified in .parcelrc config", [], 0)
    ∧ getBundler (envCaret "2.3.1") cfgEmpty [] =
      (Except.error "No bundler specified in .parcelrc config", [], 0)
    ∧ getNamers (envCaret "2.3.1") cfgEmpty [] =
      (Except.error "No namer plugins specified in .parcelrc config", [], 0)
    ∧ getTransformers (envCaret "2.3.1") cfgEmpty [] "x.js" =
      (Except.error ("No transformers found for \"" ++ "x.js" ++ "\"."), [], 0)
    ∧ getPackager (envCaret "2.3.1") cfgEmpty [] "x.js" =
      (Except.error ("No packager found for \"" ++ "x.js" ++ "\"."), [], 0)
    ∧ getRuntimes (envCaret "2.3.1") cfgEmpty [] "browser" = (Except.ok [], [], 0)
    ∧ getOptimizers (envCaret "2.3.1") cfgEmpty [] "x.js" = (Except.ok [], [], 0) := by
  have h := C6_phase_empty_policy (envCaret "2.3.1") cfgEmpty [] "x.js" "browser"
  exact ⟨h.1 rfl, h.2.1 rfl, h.2.2.1 rfl,
    h.2.2.2.1 (fun e he => absurd he (List.not_mem_nil e)),
    h.2.2.2.2.1 (fun e he => absurd he (List.not_mem_nil e)),
    h.2.2.2.2.2.1 rfl,
    h.2.2.2.2.2.2 (fun e he => absurd he (List.not_mem_nil e))⟩

end Parcel
